import Mathlib

/-
Verification of the seller-suggestion intake tool (SN_VENDEDOR.py) against its
specification.  The Python source is shallowly embedded: the database /
Streamlit layers are modelled as explicit parameters (a backend is a function
from a request to an `Except DbErr` result), the Streamlit session state is an
explicit record, and every handler is a pure function on that record.
-/

set_option maxHeartbeats 1000000

namespace SNV

/-- Characters removed by Python's `str.strip()` (ASCII whitespace). -/
def pyIsSpace (c : Char) : Bool :=
  c = ' ' || c = '\t' || c = '\n' || c = '\r' || c = '\x0b' || c = '\x0c'

/-- Python `str.strip()` at the character-list level: drop leading whitespace,
then drop trailing whitespace. -/
def pyStripList (l : List Char) : List Char :=
  ((l.dropWhile pyIsSpace).reverse.dropWhile pyIsSpace).reverse

/-- Python `s.strip()`. -/
def pyStrip (s : String) : String :=
  String.mk (pyStripList s.toList)

/-- Python `s.replace(".", "").replace(",", "")`: remove every dot and comma. -/
def stripPunct (s : String) : String :=
  String.mk (s.toList.filter (fun c => !(c = '.' || c = ',')))

/-- Python `"" if x is None else str(x)` for a nullable DB string value. -/
def optStr : Option String → String
  | none => ""
  | some s => s

theorem dropWhile_head?_not (p : α → Bool) (l : List α) :
    ∀ a, (l.dropWhile p).head? = some a → p a = false := by
  induction l with
  | nil => intro a h; simp at h
  | cons x xs ih =>
    intro a h
    by_cases hx : p x
    · rw [List.dropWhile_cons_of_pos hx] at h
      exact ih a h
    · rw [List.dropWhile_cons_of_neg hx] at h
      simp only [List.head?_cons, Option.some.injEq] at h
      rw [← h]
      simpa using hx

theorem dropWhile_eq_self_of_head? (p : α → Bool) (l : List α)
    (h : ∀ a, l.head? = some a → p a = false) : l.dropWhile p = l := by
  cases l with
  | nil => rfl
  | cons x xs =>
    have := h x (by simp)
    rw [List.dropWhile_cons_of_neg (by simp [this])]

theorem getLast?_of_isSuffix (x y : List α) (hs : x <:+ y) (hne : x ≠ []) :
    x.getLast? = y.getLast? := by
  obtain ⟨pre, rfl⟩ := hs
  rw [List.getLast?_append_of_ne_nil pre hne]

theorem pyStripList_idem (l : List Char) :
    pyStripList (pyStripList l) = pyStripList l := by
  set p := pyIsSpace with hp
  set l1 := l.dropWhile p with hl1
  set x := l1.reverse.dropWhile p with hx
  have hres : pyStripList l = x.reverse := rfl
  rcases eq_or_ne x [] with hxe | hxe
  · rw [hres, hxe]
    rfl
  · have hxhead : ∀ a, x.head? = some a → p a = false := by
      intro a ha
      exact dropWhile_head?_not p l1.reverse a (by rw [← hx]; exact ha)
    have hxlast : ∀ a, x.getLast? = some a → p a = false := by
      intro a ha
      have h1 : x.getLast? = l1.reverse.getLast? :=
        getLast?_of_isSuffix x l1.reverse (List.dropWhile_suffix p) hxe
      rw [h1, List.getLast?_reverse, hl1] at ha
      exact dropWhile_head?_not p l a ha
    have step1 : (x.reverse).dropWhile p = x.reverse := by
      apply dropWhile_eq_self_of_head?
      intro a ha
      rw [List.head?_reverse] at ha
      exact hxlast a ha
    have step2 : x.dropWhile p = x := by
      apply dropWhile_eq_self_of_head?
      exact hxhead
    rw [hres, pyStripList, step1, List.reverse_reverse, step2]

theorem toList_pyStrip (s : String) :
    (pyStrip s).toList = pyStripList s.toList := rfl

theorem pyStrip_idem (s : String) : pyStrip (pyStrip s) = pyStrip s :=
  congrArg String.mk (pyStripList_idem s.toList)

/-- A backend (pyodbc) error, carrying the driver message text. -/
structure DbErr where
  msg : String
deriving DecidableEq

/-- The lock-conflict test from `carregar_sugestoes`:
`"-1302" in msg or "exclusivo" in msg.lower()`. -/
def ehLock (e : DbErr) : Bool :=
  decide ("-1302".toList <:+: e.msg.toList)
    || decide ("exclusivo".toList <:+: e.msg.toLower.toList)

/-- The retry loop of `carregar_sugestoes`.  `exec n` is the outcome the
backend gives to the `n`-th attempt (one attempt = open a read-only
connection, run the SELECT, normalize the frame; a `pyodbc.Error` raised by
the attempt is the `.error` case).  `i` is the current attempt index,
`espera` the current wait in seconds, `fuel` the number of further attempts
the loop may still make (`tentativas - 1 - i`).  Returns the final outcome,
the list of sleeps performed (seconds), and the number of attempts made. -/
def tentar (exec : Nat → Except DbErr α) (i : Nat) (espera : ℚ) :
    Nat → Except DbErr α × List ℚ × Nat
  | 0 => (exec i, [], 1)
  | fuel + 1 =>
    match exec i with
    | .ok a => (.ok a, [], 1)
    | .error e =>
      if ehLock e then
        let r := tentar exec (i + 1) (espera * 2) fuel
        (r.1, espera :: r.2.1, r.2.2 + 1)
      else (.error e, [], 1)

/-- `carregar_sugestoes`: `tentativas = 5`, `espera = 0.5`, doubling after
each lock-conflict retry; a non-lock error, or a lock error on the final
attempt, is raised to the caller. -/
def carregar_sugestoes (exec : Nat → Except DbErr α) :
    Except DbErr α × List ℚ × Nat :=
  tentar exec 0 (1 / 2) 4

/-- `insert_sugestao`: one connection, one `execute` + `commit`, no loop —
the single backend attempt's outcome (including any lock conflict) surfaces
directly to the caller.  Same trace shape as `carregar_sugestoes`:
(outcome, sleeps performed, attempts made). -/
def insert_sugestao (exec : Nat → Except DbErr Unit) :
    Except DbErr Unit × List ℚ × Nat :=
  (exec 0, [], 1)

theorem tentar_attempts_le (exec : Nat → Except DbErr α) :
    ∀ fuel i espera, (tentar exec i espera fuel).2.2 ≤ fuel + 1 := by
  intro fuel
  induction fuel with
  | zero => intro i espera; simp [tentar]
  | succ n ih =>
    intro i espera
    simp only [tentar]
    cases exec i with
    | ok a => simp
    | error e =>
      by_cases h : ehLock e
      · simp only [h, if_pos]
        exact Nat.succ_le_succ (ih (i + 1) (espera * 2))
      · simp [h]

theorem tentar_attempts_pos (exec : Nat → Except DbErr α) :
    ∀ fuel i espera, 1 ≤ (tentar exec i espera fuel).2.2 := by
  intro fuel
  induction fuel with
  | zero => intro i espera; simp [tentar]
  | succ n ih =>
    intro i espera
    simp only [tentar]
    cases exec i with
    | ok a => simp
    | error e =>
      by_cases h : ehLock e
      · simp only [h, if_pos]
        exact Nat.le_succ_of_le (ih (i + 1) (espera * 2))
      · simp [h]

theorem tentar_sleeps (exec : Nat → Except DbErr α) :
    ∀ fuel i espera, (tentar exec i espera fuel).2.1 =
      (List.range ((tentar exec i espera fuel).2.2 - 1)).map
        (fun j => espera * 2 ^ j) := by
  intro fuel
  induction fuel with
  | zero => intro i espera; simp [tentar]
  | succ n ih =>
    intro i espera
    simp only [tentar]
    cases exec i with
    | ok a => simp
    | error e =>
      by_cases h : ehLock e
      · simp only [h, if_pos]
        have h1 := tentar_attempts_pos exec n (i + 1) (espera * 2)
        have h2 := ih (i + 1) (espera * 2)
        simp only [Nat.add_sub_cancel]
        rw [h2]
        obtain ⟨m, hm⟩ : ∃ m, (tentar exec (i + 1) (espera * 2) n).2.2 = m + 1 :=
          ⟨(tentar exec (i + 1) (espera * 2) n).2.2 - 1, by omega⟩
        rw [hm]
        simp only [Nat.add_sub_cancel]
        rw [List.range_succ_eq_map]
        simp only [List.map_cons, List.map_map, pow_zero, mul_one]
        congr 1
        apply List.map_congr_left
        intro j hj
        simp only [Function.comp_apply]
        rw [pow_succ]
        ring
      · simp [h]

theorem tentar_locks_before_last (exec : Nat → Except DbErr α) :
    ∀ fuel i espera j, j + 1 < (tentar exec i espera fuel).2.2 →
      ∃ e, exec (i + j) = .error e ∧ ehLock e = true := by
  intro fuel
  induction fuel with
  | zero => intro i espera j hj; simp [tentar] at hj
  | succ n ih =>
    intro i espera j hj
    simp only [tentar] at hj ⊢
    cases hx : exec i with
    | ok a => rw [hx] at hj; simp at hj
    | error e =>
      rw [hx] at hj
      by_cases h : ehLock e
      · simp only [h, if_pos] at hj
        cases j with
        | zero => exact ⟨e, by simpa using hx, h⟩
        | succ k =>
          have := ih (i + 1) (espera * 2) k (by omega)
          obtain ⟨e2, he2, hl2⟩ := this
          exact ⟨e2, by rw [← he2]; congr 1; omega, hl2⟩
      · simp [h] at hj

theorem tentar_result (exec : Nat → Except DbErr α) :
    ∀ fuel i espera, (tentar exec i espera fuel).1 =
      exec (i + ((tentar exec i espera fuel).2.2 - 1)) := by
  intro fuel
  induction fuel with
  | zero => intro i espera; simp [tentar]
  | succ n ih =>
    intro i espera
    simp only [tentar]
    cases hx : exec i with
    | ok a => simpa using hx.symm
    | error e =>
      by_cases h : ehLock e
      · simp only [h, if_pos]
        have h1 := tentar_attempts_pos exec n (i + 1) (espera * 2)
        have h2 := ih (i + 1) (espera * 2)
        simp only [Nat.add_sub_cancel]
        rw [h2]
        congr 1
        omega
      · simpa [h] using hx.symm

theorem tentar_nonlock_first (exec : Nat → Except DbErr α) (fuel i : Nat)
    (espera : ℚ) (e : DbErr) (hx : exec i = .error e) (hl : ehLock e = false) :
    tentar exec i espera fuel = (.error e, [], 1) := by
  cases fuel with
  | zero => simp [tentar, hx]
  | succ n => simp [tentar, hx, hl]

theorem tentar_stop (exec : Nat → Except DbErr α) :
    ∀ fuel i espera, (tentar exec i espera fuel).2.2 = fuel + 1 ∨
      (∃ a, (tentar exec i espera fuel).1 = .ok a) ∨
      (∃ e, (tentar exec i espera fuel).1 = .error e ∧ ehLock e = false) := by
  intro fuel
  induction fuel with
  | zero =>
    intro i espera
    left; simp [tentar]
  | succ n ih =>
    intro i espera
    simp only [tentar]
    cases hx : exec i with
    | ok a => right; left; exact ⟨a, rfl⟩
    | error e =>
      by_cases h : ehLock e
      · simp only [h, if_pos]
        rcases ih (i + 1) (espera * 2) with h1 | h1 | h1
        · left; omega
        · right; left; exact h1
        · right; right; exact h1
      · right; right
        simp only [h, Bool.false_eq_true, if_neg, not_false_iff]
        exact ⟨e, rfl, by simpa using h⟩

theorem range_map_meia (k : Nat) (hk : k ≤ 4) :
    (List.range k).map (fun j => (1 / 2 : ℚ) * 2 ^ j) =
      List.take k [1 / 2, 1, 2, 4] := by
  interval_cases k <;> simp [List.range_succ] <;> norm_num

/-- C1 (amended): the bounded lock-conflict retry — up to 5 attempts, waits
doubling from 0.5s (so the sleeps actually performed are a prefix of
0.5, 1, 2, 4s), lock conflicts retried while any other backend error is
surfaced immediately — is implemented in the bulk read `carregar_sugestoes`,
not in `insert_sugestao`: the insert makes exactly one backend attempt and
surfaces its outcome (lock conflict included) directly. -/
theorem C1_retry_on_read_not_insert (α : Type) (exec : Nat → Except DbErr α)
    (execIns : Nat → Except DbErr Unit) :
    insert_sugestao execIns = (execIns 0, [], 1) ∧
    1 ≤ (carregar_sugestoes exec).2.2 ∧
    (carregar_sugestoes exec).2.2 ≤ 5 ∧
    (carregar_sugestoes exec).2.1 =
      List.take ((carregar_sugestoes exec).2.2 - 1) [1 / 2, 1, 2, 4] ∧
    (∀ j, j + 1 < (carregar_sugestoes exec).2.2 →
      ∃ e, exec j = .error e ∧ ehLock e = true) ∧
    (carregar_sugestoes exec).1 = exec ((carregar_sugestoes exec).2.2 - 1) ∧
    ((carregar_sugestoes exec).2.2 = 5 ∨
      (∃ a, (carregar_sugestoes exec).1 = .ok a) ∨
      (∃ e, (carregar_sugestoes exec).1 = .error e ∧ ehLock e = false)) ∧
    (∀ e, exec 0 = .error e → ehLock e = false →
      carregar_sugestoes exec = (.error e, [], 1)) := by
  refine ⟨rfl, ?_, ?_, ?_, ?_, ?_, ?_, ?_⟩
  · exact tentar_attempts_pos exec 4 0 (1 / 2)
  · exact tentar_attempts_le exec 4 0 (1 / 2)
  · have h1 := tentar_sleeps exec 4 0 (1 / 2)
    have h2 := tentar_attempts_le exec 4 0 (1 / 2)
    rw [carregar_sugestoes, h1, range_map_meia _ (by omega)]
  · intro j hj
    have := tentar_locks_before_last exec 4 0 (1 / 2) j hj
    simpa using this
  · have h := tentar_result exec 4 0 (1 / 2)
    rw [Nat.zero_add] at h
    exact h
  · exact tentar_stop exec 4 0 (1 / 2)
  · intro e hx hl
    exact tentar_nonlock_first exec 4 0 (1 / 2) e hx hl

/-- A pyodbc-style message that `carregar_sugestoes` classifies as a lock
conflict (it contains both "-1302" and "exclusivo"). -/
def lockErr : DbErr :=
  ⟨"ODBC Access error -1302: tabela aberta em modo exclusivo"⟩

/-- A backend whose first attempt hits a lock conflict and whose later
attempts succeed: under the claimed retry policy an insert against it would
succeed on the second attempt. -/
def cexExec : Nat → Except DbErr Unit :=
  fun n => if n = 0 then .error lockErr else .ok ()

/-- C1 counterexample: against a backend whose first attempt is a lock
conflict and whose second attempt would succeed, `insert_sugestao` makes a
single attempt and surfaces the lock error — it does not retry — while the
very same backend outcome sequence is retried (one 0.5s backoff, success on
attempt 2) by the read path `carregar_sugestoes`.  So the claim's retry is
not on insert. -/
theorem C1_counterexample :
    ehLock lockErr = true ∧
    insert_sugestao cexExec = (.error lockErr, [], 1) ∧
    (carregar_sugestoes cexExec).1 = .ok () ∧
    (carregar_sugestoes cexExec).2 = ([1 / 2], 2) := by
  have hlock : ehLock lockErr = true := by decide
  refine ⟨hlock, rfl, ?_, ?_⟩ <;>
    simp [carregar_sugestoes, tentar, cexExec, hlock]

/-- C1 witness: the amended theorem applied to the concrete backend
`cexExec`, with each hypothesis of its conditional conjuncts discharged
there. -/
theorem C1_witness :
    insert_sugestao cexExec = (cexExec 0, [], 1) ∧
    (carregar_sugestoes cexExec).2.2 ≤ 5 ∧
    (∃ e, cexExec 0 = .error e ∧ ehLock e = true) := by
  obtain ⟨h1, _, h3, _, h5, _, _, _⟩ :=
    C1_retry_on_read_not_insert Unit cexExec cexExec
  exact ⟨h1, h3, h5 0 (by decide)⟩

/-- The dedup loop of `carregar_itens_por_referencia`: a `seen` set plus an
output list built left to right, keeping the first occurrence of each
element. -/
def dedupGo [DecidableEq α] (seen : List α) : List α → List α
  | [] => []
  | t :: ts => if t ∈ seen then dedupGo seen ts else t :: dedupGo (t :: seen) ts

/-- "remove duplicados preservando ordem" — the dedup pass started with an
empty `seen` set. -/
def dedupKeepFirst [DecidableEq α] (l : List α) : List α := dedupGo [] l

/-- Specification-side first-seen deduplication: keep the head, then dedup
the tail with every later copy of the head removed.  This is the canonical
statement of "no duplicates, first-seen encounter order". -/
def firstSeenSpec [DecidableEq α] : List α → List α
  | [] => []
  | a :: l => a :: firstSeenSpec (l.filter fun x => decide (x ≠ a))
  termination_by l => l.length
  decreasing_by
    simp only [List.length_cons]
    exact Nat.lt_succ_of_le (List.length_filter_le _ _)

theorem dedupGo_eq_firstSeenSpec [DecidableEq α] (l : List α) :
    ∀ seen, dedupGo seen l =
      firstSeenSpec (l.filter fun x => decide (x ∉ seen)) := by
  induction l with
  | nil => intro seen; simp [dedupGo, firstSeenSpec]
  | cons t ts ih =>
    intro seen
    by_cases ht : t ∈ seen
    · rw [dedupGo, if_pos ht, ih seen]
      congr 1
      simp [List.filter_cons, ht]
    · rw [dedupGo, if_neg ht, ih (t :: seen)]
      have hfc : (t :: ts).filter (fun x => decide (x ∉ seen)) =
          t :: ts.filter (fun x => decide (x ∉ seen)) := by
        simp [List.filter_cons, ht]
      have hff : (ts.filter (fun x => decide (x ∉ seen))).filter
            (fun x => decide (x ≠ t)) =
          ts.filter (fun x => decide (x ∉ t :: seen)) := by
        rw [List.filter_filter]
        apply List.filter_congr
        intro x hx
        by_cases h1 : x = t <;> by_cases h2 : x ∈ seen <;> simp [h1, h2]
      rw [hfc, firstSeenSpec, hff]

theorem dedupGo_mem [DecidableEq α] (l : List α) :
    ∀ seen x, x ∈ dedupGo seen l ↔ x ∈ l ∧ x ∉ seen := by
  induction l with
  | nil => intro seen x; simp [dedupGo]
  | cons t ts ih =>
    intro seen x
    by_cases ht : t ∈ seen
    · rw [dedupGo, if_pos ht, ih seen]
      constructor
      · rintro ⟨h1, h2⟩; exact ⟨List.mem_cons_of_mem _ h1, h2⟩
      · rintro ⟨h1, h2⟩
        rcases List.mem_cons.mp h1 with rfl | h1
        · exact absurd ht h2
        · exact ⟨h1, h2⟩
    · rw [dedupGo, if_neg ht]
      simp only [List.mem_cons, ih (t :: seen), List.mem_cons, not_or]
      constructor
      · rintro (rfl | ⟨h1, h2, h3⟩)
        · exact ⟨Or.inl rfl, ht⟩
        · exact ⟨Or.inr h1, h3⟩
      · rintro ⟨rfl | h1, h2⟩
        · exact Or.inl rfl
        · by_cases hxt : x = t
          · exact Or.inl hxt
          · exact Or.inr ⟨h1, hxt, h2⟩

theorem dedupGo_nodup [DecidableEq α] (l : List α) :
    ∀ seen, (dedupGo seen l).Nodup := by
  induction l with
  | nil => intro seen; simp [dedupGo]
  | cons t ts ih =>
    intro seen
    by_cases ht : t ∈ seen
    · rw [dedupGo, if_pos ht]; exact ih seen
    · rw [dedupGo, if_neg ht]
      refine List.nodup_cons.mpr ⟨?_, ih (t :: seen)⟩
      rw [dedupGo_mem]
      rintro ⟨-, h2⟩
      exact h2 (List.mem_cons_self t seen)

theorem dedupGo_sublist [DecidableEq α] (l : List α) :
    ∀ seen, List.Sublist (dedupGo seen l) l := by
  induction l with
  | nil => intro seen; simp [dedupGo]
  | cons t ts ih =>
    intro seen
    by_cases ht : t ∈ seen
    · rw [dedupGo, if_pos ht]; exact (ih seen).cons t
    · rw [dedupGo, if_neg ht]; exact (ih (t :: seen)).cons₂ t

theorem dedupKeepFirst_eq [DecidableEq α] (l : List α) :
    dedupKeepFirst l = firstSeenSpec l := by
  rw [dedupKeepFirst, dedupGo_eq_firstSeenSpec]
  congr 1
  simp

theorem firstSeenSpec_nodup [DecidableEq α] (l : List α) :
    (firstSeenSpec l).Nodup := by
  rw [← dedupKeepFirst_eq]; exact dedupGo_nodup l []

theorem firstSeenSpec_sublist [DecidableEq α] (l : List α) :
    List.Sublist (firstSeenSpec l) l := by
  rw [← dedupKeepFirst_eq]; exact dedupGo_sublist l []

/-- The per-row cleanup of `carregar_itens_por_referencia`: the code value
loses every dot and comma and is stripped; the description is stripped;
NULLs become the empty string. -/
def limpaItem (r : Option String × Option String) : String × String :=
  (pyStrip (stripPunct (optStr r.1)), pyStrip (optStr r.2))

/-- `carregar_itens_por_referencia`, over a backend query returning the
nullable (CODIGO, DESCRICAO) rows of SN_QUERY_REFERENCIA for a reference.
Returns the outcome plus the number of backend calls made.  A blank or
whitespace-only reference short-circuits before any query. -/
def carregar_itens_por_referencia
    (query : String → Except DbErr (List (Option String × Option String)))
    (referencia : String) :
    Except DbErr (List (String × String)) × Nat :=
  if pyStrip referencia = "" then (.ok [], 0)
  else
    match query (pyStrip referencia) with
    | .error e => (.error e, 1)
    | .ok rows => (.ok (dedupKeepFirst (rows.map limpaItem)), 1)

/-- C5: `carregar_itens_por_referencia` short-circuits every blank or
whitespace-only reference to an empty list with zero backend calls; for any
reference the backend answers, the result is the exact-equality first-seen
deduplication of the cleaned (code, description) pairs — codes compared
after dropping '.' and ',' — so it has no duplicate pair and is a
subsequence (encounter order preserved) of the cleaned rows. -/
theorem C5_fetch_items_dedup
    (query : String → Except DbErr (List (Option String × Option String)))
    (referencia : String) :
    (pyStrip referencia = "" →
      carregar_itens_por_referencia query referencia = (.ok [], 0)) ∧
    (∀ rows, pyStrip referencia ≠ "" →
      query (pyStrip referencia) = .ok rows →
      carregar_itens_por_referencia query referencia =
        (.ok (firstSeenSpec (rows.map limpaItem)), 1) ∧
      (firstSeenSpec (rows.map limpaItem)).Nodup ∧
      List.Sublist (firstSeenSpec (rows.map limpaItem)) (rows.map limpaItem)) := by
  constructor
  · intro h
    rw [carregar_itens_por_referencia, if_pos h]
  · intro rows h hq
    have hrun : carregar_itens_por_referencia query referencia =
        (.ok (dedupKeepFirst (rows.map limpaItem)), 1) := by
      rw [carregar_itens_por_referencia, if_neg h, hq]
    rw [hrun, dedupKeepFirst_eq]
    exact ⟨rfl, firstSeenSpec_nodup _, firstSeenSpec_sublist _⟩

/-- The backend rows of the spec scenario: reference "ABC123" resolves to
raw rows whose codes "0.0.1", "001" collapse after de-punctuation. -/
def rowsW : List (Option String × Option String) :=
  [(some "0.0.1", some "Parafuso"), (some "001", some "Parafuso"),
   (some "002", some "Parafuso")]

/-- A concrete backend for the C5 witness. -/
def queryW : String → Except DbErr (List (Option String × Option String)) :=
  fun r => if r = "ABC123" then .ok rowsW else .ok []

/-- C5 witness: the theorem applied to a whitespace-only reference and to
the spec scenario "ABC123", whose three raw rows collapse to exactly two
items. -/
theorem C5_witness :
    carregar_itens_por_referencia queryW "   " = (.ok [], 0) ∧
    carregar_itens_por_referencia queryW " ABC123 " =
      (.ok [("001", "Parafuso"), ("002", "Parafuso")], 1) := by
  have h1 := (C5_fetch_items_dedup queryW "   ").1 (by decide)
  have h2 := (C5_fetch_items_dedup queryW " ABC123 ").2 rowsW (by decide)
    (by rfl)
  have h3 : dedupKeepFirst (rowsW.map limpaItem) =
      [("001", "Parafuso"), ("002", "Parafuso")] := by decide
  refine ⟨h1, ?_⟩
  rw [h2.1, ← dedupKeepFirst_eq, h3]

/-- A row of CADASTRO_USUARIO as `authenticate_user` sees it: the
upper-cased column names paired with nullable string values (the `data`
dict built from `zip(cols, row)`). -/
def UserRow : Type := List (String × Option String)

/-- Python dict lookup on the zip-built `data` dict: the LAST entry for a
duplicated key wins, absence is `none`. -/
def getCol (row : UserRow) (k : String) : Option (Option String) :=
  (row.reverse.find? (fun p => p.1 = k)).map (fun p => p.2)

/-- Python truthiness for a nullable string (`None` and `""` are falsy). -/
def truthy : Option String → Bool
  | none => false
  | some s => s ≠ ""

/-- The display-name chain
`data.get("NOME") or data.get("NOME_USUARIO") or login`. -/
def nomeExibicao (row : UserRow) (login : String) : String :=
  match getCol row "NOME" with
  | some v => if truthy v then optStr v else
    match getCol row "NOME_USUARIO" with
    | some w => if truthy w then optStr w else login
    | none => login
  | none =>
    match getCol row "NOME_USUARIO" with
    | some w => if truthy w then optStr w else login
    | none => login

/-- The first password column present among SENHA, PASSWORD, SENHA_USUARIO
(`some v` when a column is present holding nullable value `v`). -/
def senhaReal (row : UserRow) : Option (Option String) :=
  match getCol row "SENHA" with
  | some v => some v
  | none =>
    match getCol row "PASSWORD" with
    | some v => some v
    | none => getCol row "SENHA_USUARIO"

/-- `authenticate_user`, over a backend lookup of CADASTRO_USUARIO by LOGIN
(`db login` is the fetched row, `none` when no row matches, `.error` when
the driver raises).  Returns the (authenticated, display-name) pair — or the
propagated backend error — plus the number of backend calls made. -/
def authenticate_user (db : String → Except DbErr (Option UserRow))
    (login senha : String) :
    Except DbErr (Bool × Option String) × Nat :=
  if login = "" then (.ok (false, none), 0)
  else
    match db login with
    | .error e => (.error e, 1)
    | .ok none => (.ok (false, none), 1)
    | .ok (some row) =>
      match senhaReal row with
      | none => (.ok (false, none), 1)
      | some none => (.ok (false, none), 1)
      | some (some sr) =>
        (.ok (decide (sr = senha), some (nomeExibicao row login)), 1)

/-- What the login gate shows after the Entrar button: nothing reaches the
caller as an exception — a backend error is caught and shown as a banner. -/
inductive LoginOutcome where
  | missingFields
  | invalid
  | dbError (e : DbErr)
  | loggedIn (usuario : String)
deriving DecidableEq

/-- The login flow around `authenticate_user`: strip the user field, refuse
empty user or password before any backend call, catch `pyodbc.Error`, and on
success store `nome or user` as the session user.  Returns the outcome plus
the number of backend calls made. -/
def loginFlow (db : String → Except DbErr (Option UserRow))
    (login_user login_pass : String) : LoginOutcome × Nat :=
  let user := pyStrip login_user
  let pwd := login_pass
  if user = "" || pwd = "" then (.missingFields, 0)
  else
    match authenticate_user db user pwd with
    | (.error e, n) => (.dbError e, n)
    | (.ok (ok, nome), n) =>
      if ok then (.loggedIn (if truthy nome then optStr nome else user), n)
      else (.invalid, n)

/-- C6: authentication fails closed — empty login, user not found, and a
missing (or NULL) password column each yield a not-authenticated result, an
empty login without even a backend call; a backend error never raises past
the login flow (it becomes a caught `dbError` outcome, never a login); and a
login attempt with an empty password is refused with zero backend calls. -/
theorem C6_auth_fails_closed (db : String → Except DbErr (Option UserRow))
    (login senha lu : String) (row : UserRow) (e : DbErr) :
    (authenticate_user db "" senha = (.ok (false, none), 0)) ∧
    (login ≠ "" → db login = .ok none →
      authenticate_user db login senha = (.ok (false, none), 1)) ∧
    (login ≠ "" → db login = .ok (some row) →
      (senhaReal row = none ∨ senhaReal row = some none) →
      authenticate_user db login senha = (.ok (false, none), 1)) ∧
    (pyStrip lu ≠ "" → senha ≠ "" → db (pyStrip lu) = .error e →
      loginFlow db lu senha = (.dbError e, 1) ∧
      ∀ u, (loginFlow db lu senha).1 ≠ .loggedIn u) ∧
    (loginFlow db lu "" = (.missingFields, 0)) := by
  refine ⟨?_, ?_, ?_, ?_, ?_⟩
  · rw [authenticate_user, if_pos rfl]
  · intro h hdb
    rw [authenticate_user, if_neg h, hdb]
  · intro h hdb hs
    rw [authenticate_user, if_neg h, hdb]
    dsimp only
    rcases hs with hs | hs <;> rw [hs]
  · intro hu hp hdb
    have hcall : authenticate_user db (pyStrip lu) senha = (.error e, 1) := by
      rw [authenticate_user, if_neg hu, hdb]
    have : loginFlow db lu senha = (.dbError e, 1) := by
      rw [loginFlow]
      simp only [hu, hp, Bool.or_self, decide_eq_true_eq]
      rw [if_neg (by simp [hu, hp]), hcall]
    exact ⟨this, by rw [this]; intro u; simp⟩
  · rw [loginFlow]
    simp

/-- A credentials row with none of the SENHA / PASSWORD / SENHA_USUARIO
columns. -/
def rowNoPass : UserRow := [("LOGIN", some "x"), ("NOME", some "Xavier")]

/-- A concrete credentials backend for the C6 witness. -/
def dbW : String → Except DbErr (Option UserRow) := fun l =>
  if l = "maria" then
    .ok (some [("LOGIN", some "maria"), ("NOME", some "Maria Silva"),
      ("SENHA", some "s3nh4")])
  else if l = "semsenha" then .ok (some rowNoPass)
  else if l = "erro" then .error ⟨"connection failed"⟩
  else .ok none

/-- C6 witness: the theorem applied to a concrete backend — empty login,
unknown login, login whose row has no password column, backend error, and
empty password. -/
theorem C6_witness :
    authenticate_user dbW "" "x" = (.ok (false, none), 0) ∧
    authenticate_user dbW "joao" "x" = (.ok (false, none), 1) ∧
    authenticate_user dbW "semsenha" "x" = (.ok (false, none), 1) ∧
    loginFlow dbW "erro" "x" = (.dbError ⟨"connection failed"⟩, 1) ∧
    loginFlow dbW "maria" "" = (.missingFields, 0) := by
  refine ⟨(C6_auth_fails_closed dbW "" "x" "" rowNoPass ⟨""⟩).1,
    (C6_auth_fails_closed dbW "joao" "x" "" rowNoPass ⟨""⟩).2.1
      (by decide) (by rfl),
    (C6_auth_fails_closed dbW "semsenha" "x" "" rowNoPass ⟨""⟩).2.2.1
      (by decide) (by rfl) (Or.inl (by rfl)),
    ((C6_auth_fails_closed dbW "" "x" "erro" rowNoPass
      ⟨"connection failed"⟩).2.2.2.1 (by decide) (by decide) (by rfl)).1,
    (C6_auth_fails_closed dbW "" "x" "maria" rowNoPass ⟨""⟩).2.2.2.2⟩

/-- The Streamlit session state: authentication, the data-entry form, the
flow flags and the report filter selections, exactly the keys of
`init_state_defaults` (leading underscores dropped from the flag names). -/
structure AppState where
  authenticated : Bool
  usuario : Option String
  login_user : String
  login_pass : String
  referencia : String
  quantidade : Option Nat
  marca : String
  tipo_sugestao : Option String
  comentario : String
  itens_ref : List (String × String)
  item_escolhido : Option String
  codigo_item : Option String
  descricao_item : Option String
  clear_after_save : Bool
  clear_request : Bool
  f_ref : String
  f_marca : String
  f_tipo : String
  f_vendedor : String
  f_acao : String
  f_coment_comp : String
  f_oc : String
  f_codigo : String
  f_desc : String
  f_data : String
  clear_filters_request : Bool
  pending_success : Bool
deriving DecidableEq

/-- `init_state_defaults`: the default value of every session-state key. -/
def init_state_defaults : AppState where
  authenticated := false
  usuario := none
  login_user := ""
  login_pass := ""
  referencia := ""
  quantidade := none
  marca := ""
  tipo_sugestao := none
  comentario := ""
  itens_ref := []
  item_escolhido := none
  codigo_item := none
  descricao_item := none
  clear_after_save := false
  clear_request := false
  f_ref := "(Todos)"
  f_marca := "(Todos)"
  f_tipo := "(Todos)"
  f_vendedor := "(Todos)"
  f_acao := "(Todos)"
  f_coment_comp := "(Todos)"
  f_oc := "(Todos)"
  f_codigo := "(Todos)"
  f_desc := "(Todos)"
  f_data := "(Todos)"
  clear_filters_request := false
  pending_success := false

/-- The data-entry form fields, as one tuple: reference, quantity, brand,
suggestion type, comment, loaded item list, chosen item label, item code,
item description. -/
def formFields (s : AppState) :
    String × Option Nat × String × Option String × String ×
      List (String × String) × Option String × Option String ×
      Option String :=
  (s.referencia, s.quantidade, s.marca, s.tipo_sugestao, s.comentario,
    s.itens_ref, s.item_escolhido, s.codigo_item, s.descricao_item)

/-- `on_change_referencia`: reset the item list and the previous selection,
then — for a non-blank reference — reload the item list, swallowing any
exception from the lookup (`except Exception: itens_ref = []`). -/
def on_change_referencia
    (query : String → Except DbErr (List (Option String × Option String)))
    (s : AppState) : AppState :=
  let ref := pyStrip s.referencia
  let s1 := { s with itens_ref := [], item_escolhido := none,
                     codigo_item := none, descricao_item := none }
  if ref = "" then s1
  else
    match (carregar_itens_por_referencia query ref).1 with
    | .ok itens => { s1 with itens_ref := itens }
    | .error _ => s1

/-- `apply_pending_clear`: when a form clear is pending, reset every form
field to its default and drop both flags; when a filter clear is pending,
reset every filter selection to "(Todos)" and drop its flag. -/
def apply_pending_clear (s : AppState) : AppState :=
  let s1 :=
    if s.clear_after_save || s.clear_request then
      { s with referencia := "", quantidade := none, marca := "",
               tipo_sugestao := none, comentario := "", itens_ref := [],
               item_escolhido := none, codigo_item := none,
               descricao_item := none, clear_after_save := false,
               clear_request := false }
    else s
  if s1.clear_filters_request then
    { s1 with f_ref := "(Todos)", f_marca := "(Todos)", f_tipo := "(Todos)",
              f_vendedor := "(Todos)", f_acao := "(Todos)",
              f_coment_comp := "(Todos)", f_oc := "(Todos)",
              f_codigo := "(Todos)", f_desc := "(Todos)",
              f_data := "(Todos)", clear_filters_request := false }
  else s1

/-- The INSERT row of `insert_sugestao`: REFERENCIA, QUANTIDADE, MARCA,
TIPO_SUGESTAO, COMENTARIO_VENDEDOR, CODIGO, DESCRICAO_CODIGO, VENDEDOR. -/
structure Payload where
  referencia : String
  quantidade : Nat
  marca : String
  tipo : Option String
  comentario : String
  codigo : Option String
  descricao_codigo : Option String
  vendedor : Option String
deriving DecidableEq

/-- The list of validation messages the salvar handler accumulates, in
source order (each `if cond: erros.append(msg)` becomes one conditional
singleton). -/
def errosDe (s : AppState) : List String :=
  (if pyStrip s.referencia = "" then ["Informe a **Referência**."] else []) ++
  (if s.itens_ref = [] then
    ["Nenhum **item** foi encontrado para esta **Referência**. Revise a referência."]
   else []) ++
  (if s.itens_ref ≠ [] ∧ s.item_escolhido = none then
    ["Selecione o **Código Item / Descrição do Item**."]
   else []) ++
  (if s.quantidade = none then ["Selecione a **Quantidade**."] else []) ++
  (if pyStrip s.marca = "" then ["Informe a **Marca**."] else []) ++
  (if s.tipo_sugestao = none then ["Selecione o **Tipo Sugestão**."] else [])

/-- The payload the salvar handler would send: stripped reference, brand and
comment, `int(quantidade)` (the selectbox guarantees `some` on the valid
path; `0` stands for the unreachable `none`), the bound item code and
description, and the logged-in user as VENDEDOR. -/
def payloadDe (s : AppState) : Payload where
  referencia := pyStrip s.referencia
  quantidade := (s.quantidade).getD 0
  marca := pyStrip s.marca
  tipo := s.tipo_sugestao
  comentario := pyStrip s.comentario
  codigo := s.codigo_item
  descricao_codigo := s.descricao_item
  vendedor := s.usuario

/-- What one press of Salvar produces: the session state afterwards, the
validation messages shown, and the payload sent to the backend insert
(`none` when no insert call was made). -/
structure SalvarOutcome where
  state : AppState
  erros : List String
  payloadSent : Option Payload
deriving DecidableEq

/-- The salvar button handler: validate collecting every violation; when any
violation exists show them all and stop (no backend call); otherwise run the
insert — on success flag the 5s success message and the pending form clear
(both picked up on the next script run), on a backend error show it and
leave the state untouched. -/
def salvar (ins : Payload → Except DbErr Unit) (s : AppState) :
    SalvarOutcome :=
  let erros := errosDe s
  if erros.isEmpty then
    match ins (payloadDe s) with
    | .ok _ =>
      ⟨{ s with pending_success := true, clear_after_save := true }, [],
        some (payloadDe s)⟩
    | .error _ => ⟨s, [], some (payloadDe s)⟩
  else ⟨s, erros, none⟩

/-- Spec-side: "quantity is set (1..1000)" — the quantity selectbox offers
exactly 1..1000, so the constraint holds iff a quantity in that range is
selected. -/
def quantidadeDefinida (s : AppState) : Bool :=
  match s.quantidade with
  | some q => decide (1 ≤ q) && decide (q ≤ 1000)
  | none => false

/-- Spec-side: "suggestion type selected" — the type selectbox offers
exactly VENDA_CASADA and VENDA_PERDIDA. -/
def tipoSelecionado (s : AppState) : Bool :=
  match s.tipo_sugestao with
  | some t => t = "VENDA_CASADA" || t = "VENDA_PERDIDA"
  | none => false

/-- Spec-side: the submit constraints in the order the spec lists them, each
paired with its violation message: reference non-empty; item list non-empty
for the given reference; an item is selected (from the loaded list);
quantity set in 1..1000; brand non-empty; suggestion type selected. -/
def specConstraints (s : AppState) : List (Bool × String) :=
  [(decide (pyStrip s.referencia ≠ ""), "Informe a **Referência**."),
   (decide (s.itens_ref ≠ []),
     "Nenhum **item** foi encontrado para esta **Referência**. Revise a referência."),
   (decide (s.itens_ref ≠ [] → s.item_escolhido ≠ none),
     "Selecione o **Código Item / Descrição do Item**."),
   (quantidadeDefinida s, "Selecione a **Quantidade**."),
   (decide (pyStrip s.marca ≠ ""), "Informe a **Marca**."),
   (tipoSelecionado s, "Selecione o **Tipo Sugestão**.")]

/-- Spec-side: the messages of every violated constraint, in order. -/
def specViolations (s : AppState) : List String :=
  (specConstraints s).filterMap (fun p => if p.1 then none else some p.2)

/-- C2: for every form state reachable through the widgets (the quantity
selectbox offers 1..1000 and the type selectbox offers the two suggestion
types), one press of Salvar reports exactly the violated constraints of the
spec's ordered list — all of them at once, not a short-circuited first one —
and whenever that list is non-empty no insert backend call is made. -/
theorem C2_validate_all_then_insert (ins : Payload → Except DbErr Unit)
    (s : AppState)
    (hq : ∀ q, s.quantidade = some q → 1 ≤ q ∧ q ≤ 1000)
    (ht : ∀ t, s.tipo_sugestao = some t →
      t = "VENDA_CASADA" ∨ t = "VENDA_PERDIDA") :
    (salvar ins s).erros = specViolations s ∧
    ((salvar ins s).erros ≠ [] → (salvar ins s).payloadSent = none) := by
  have hqd : quantidadeDefinida s = s.quantidade.isSome := by
    cases hx : s.quantidade with
    | none => simp [quantidadeDefinida, hx]
    | some q =>
      obtain ⟨h1, h2⟩ := hq q hx
      simp [quantidadeDefinida, hx, h1, h2]
  have htd : tipoSelecionado s = s.tipo_sugestao.isSome := by
    cases hx : s.tipo_sugestao with
    | none => simp [tipoSelecionado, hx]
    | some t =>
      rcases ht t hx with h | h <;> simp [tipoSelecionado, hx, h]
  have key : errosDe s = specViolations s := by
    by_cases h1 : pyStrip s.referencia = "" <;>
      by_cases h2 : s.itens_ref = [] <;>
      by_cases h3 : s.item_escolhido = none <;>
      by_cases h4 : s.quantidade = none <;>
      by_cases h5 : pyStrip s.marca = "" <;>
      by_cases h6 : s.tipo_sugestao = none <;>
      simp [errosDe, specViolations, specConstraints, hqd, htd, h1, h2, h3,
        h4, h5, h6, Option.isSome_iff_ne_none]
  constructor
  · by_cases he : (errosDe s).isEmpty
    · have hnil : errosDe s = [] := by simpa using he
      rw [← key, hnil]
      cases hi : ins (payloadDe s) <;> simp [salvar, hnil, hi]
    · have hrun : (salvar ins s).erros = errosDe s := by simp [salvar, he]
      rw [hrun, key]
  · intro hne
    by_cases he : (errosDe s).isEmpty
    · exfalso
      cases hi : ins (payloadDe s) <;> simp [salvar, he, hi] at hne
    · simp [salvar, he]

/-- A backend insert that always succeeds. -/
def insOk : Payload → Except DbErr Unit := fun _ => .ok ()

/-- A state with a brand but nothing else filled in: four constraints are
violated at once. -/
def sInvalid : AppState := { init_state_defaults with marca := "Bosch" }

/-- C2 witness: the theorem at a concrete state (brand only), whose press of
Salvar reports the four violated constraints together — reference, item
list, quantity, type — and sends nothing to the backend. -/
theorem C2_witness :
    (salvar insOk sInvalid).erros = specViolations sInvalid ∧
    (salvar insOk sInvalid).erros =
      ["Informe a **Referência**.",
       "Nenhum **item** foi encontrado para esta **Referência**. Revise a referência.",
       "Selecione a **Quantidade**.",
       "Selecione o **Tipo Sugestão**."] ∧
    (salvar insOk sInvalid).payloadSent = none := by
  have h := C2_validate_all_then_insert insOk sInvalid
    (by intro q hx; simp [sInvalid, init_state_defaults] at hx)
    (by intro t hx; simp [sInvalid, init_state_defaults] at hx)
  have hev : (salvar insOk sInvalid).erros =
      ["Informe a **Referência**.",
       "Nenhum **item** foi encontrado para esta **Referência**. Revise a referência.",
       "Selecione a **Quantidade**.",
       "Selecione o **Tipo Sugestão**."] := by
    rw [h.1]; decide
  exact ⟨h.1, hev, h.2 (by rw [hev]; decide)⟩

/-- A fully-filled valid form state: logged in, reference resolved to one
item which is selected, quantity 5, brand Bosch, type VENDA_CASADA. -/
def sValid : AppState :=
  { init_state_defaults with
    authenticated := true
    usuario := some "Maria Silva"
    referencia := "ABC123"
    quantidade := some 5
    marca := "Bosch"
    tipo_sugestao := some "VENDA_CASADA"
    itens_ref := [("001", "Parafuso")]
    item_escolhido := some "001 - Parafuso"
    codigo_item := some "001"
    descricao_item := some "Parafuso" }

/-- C3: for every valid submission the backend acknowledges, Salvar flags
both the pending success message and the pending form clear, and the clear —
applied at the very top of the next script run, before the success message
is even considered — returns every form field (reference, quantity, brand,
type, comment, item list, chosen label, code, description) to its initial
default, whatever the state of the 5-second success-message flag; the flag
itself is untouched by the reset. -/
theorem C3_full_reset_after_save (ins : Payload → Except DbErr Unit)
    (s : AppState) (hvalid : errosDe s = [])
    (hok : ins (payloadDe s) = .ok ()) :
    (salvar ins s).state.clear_after_save = true ∧
    (salvar ins s).state.pending_success = true ∧
    ∀ b : Bool,
      formFields (apply_pending_clear
        { (salvar ins s).state with pending_success := b }) =
        formFields init_state_defaults ∧
      (apply_pending_clear
        { (salvar ins s).state with pending_success := b }).pending_success
        = b := by
  have hrun : (salvar ins s).state =
      { s with pending_success := true, clear_after_save := true } := by
    simp [salvar, hvalid, hok]
  refine ⟨by rw [hrun], by rw [hrun], ?_⟩
  intro b
  rw [hrun]
  constructor <;>
    by_cases hf : s.clear_filters_request <;>
      simp [apply_pending_clear, hf, formFields, init_state_defaults]

/-- C3 witness: a concrete fully-filled valid state and an acknowledging
backend; after the scheduled clear runs — with the success message still
pending (`b = true`) — the form fields are back at their defaults. -/
theorem C3_witness :
    formFields (apply_pending_clear
      { (salvar insOk sValid).state with pending_success := true }) =
      formFields init_state_defaults ∧
    (salvar insOk sValid).state.clear_after_save = true := by
  have h := C3_full_reset_after_save insOk sValid (by decide) rfl
  exact ⟨(h.2.2 true).1, h.1⟩

/-- A backend insert that always fails (for example, the .accdb file is
locked for longer than the caller waits). -/
def insFail : Payload → Except DbErr Unit :=
  fun _ => .error ⟨"disk or network error"⟩

/-- C4: when the backend insert of a valid submission fails, the handler
leaves the session state exactly as it was — in particular no clear flag is
raised, so the next script run's `apply_pending_clear` leaves every form
field (reference, quantity, brand, type, comment, item list, selection)
unchanged and the user can retry without re-entering anything. -/
theorem C4_preserved_on_failure (ins : Payload → Except DbErr Unit)
    (s : AppState) (e : DbErr) (hvalid : errosDe s = [])
    (hfail : ins (payloadDe s) = .error e) :
    (salvar ins s).state = s ∧
    (s.clear_after_save = false → s.clear_request = false →
      formFields (apply_pending_clear (salvar ins s).state) = formFields s) := by
  have hrun : (salvar ins s).state = s := by
    simp [salvar, hvalid, hfail]
  refine ⟨hrun, ?_⟩
  intro h1 h2
  rw [hrun]
  by_cases hf : s.clear_filters_request <;>
    simp [apply_pending_clear, h1, h2, hf, formFields]

/-- C4 witness: the same concrete valid state against a failing backend —
the state survives unchanged, and so do the form fields after the pending
clears run. -/
theorem C4_witness :
    (salvar insFail sValid).state = sValid ∧
    formFields (apply_pending_clear (salvar insFail sValid).state) =
      formFields sValid := by
  have h := C4_preserved_on_failure insFail sValid ⟨"disk or network error"⟩
    (by decide) rfl
  exact ⟨h.1, h.2 rfl rfl⟩

/-- The item lookup backend that answers every reference with zero rows. -/
def queryVazia : String → Except DbErr (List (Option String × Option String)) :=
  fun _ => .ok []

/-- C10: the reference-change handler is total over every backend outcome —
the prior item selection (label, code, description) is always reset, and a
lookup that errors leaves the item list empty, making the handler's output
identical to that of a backend that found zero catalog items. -/
theorem C10_lookup_error_is_empty
    (query : String → Except DbErr (List (Option String × Option String)))
    (s : AppState) :
    (on_change_referencia query s).item_escolhido = none ∧
    (on_change_referencia query s).codigo_item = none ∧
    (on_change_referencia query s).descricao_item = none ∧
    (∀ e, (carregar_itens_por_referencia query (pyStrip s.referencia)).1 =
        .error e →
      on_change_referencia query s = on_change_referencia queryVazia s ∧
      (on_change_referencia query s).itens_ref = []) := by
  refine ⟨?_, ?_, ?_, ?_⟩
  · rw [on_change_referencia]
    by_cases h : pyStrip s.referencia = ""
    · simp [h]
    · simp only [h, if_neg, not_false_iff]
      cases (carregar_itens_por_referencia query (pyStrip s.referencia)).1 <;>
        simp
  · rw [on_change_referencia]
    by_cases h : pyStrip s.referencia = ""
    · simp [h]
    · simp only [h, if_neg, not_false_iff]
      cases (carregar_itens_por_referencia query (pyStrip s.referencia)).1 <;>
        simp
  · rw [on_change_referencia]
    by_cases h : pyStrip s.referencia = ""
    · simp [h]
    · simp only [h, if_neg, not_false_iff]
      cases (carregar_itens_por_referencia query (pyStrip s.referencia)).1 <;>
        simp
  · intro e he
    have hi : pyStrip (pyStrip s.referencia) = pyStrip s.referencia :=
      pyStrip_idem s.referencia
    by_cases h : pyStrip s.referencia = ""
    · rw [carregar_itens_por_referencia, hi, if_pos h] at he
      simp at he
    · have hvz : (carregar_itens_por_referencia queryVazia
          (pyStrip s.referencia)).1 = .ok [] := by
        rw [carregar_itens_por_referencia, hi, if_neg h]
        simp [queryVazia, dedupKeepFirst, dedupGo]
      constructor
      · rw [on_change_referencia, on_change_referencia]
        simp only [h, if_neg, not_false_iff]
        rw [he, hvz]
      · rw [on_change_referencia]
        simp only [h, if_neg, not_false_iff]
        rw [he]

/-- An item lookup backend that always raises. -/
def queryErro : String → Except DbErr (List (Option String × Option String)) :=
  fun _ => .error ⟨"connection failed"⟩

/-- C10 witness: on the concrete filled state, a raising lookup backend and
the zero-items backend produce identical handler output, with the selection
reset. -/
theorem C10_witness :
    on_change_referencia queryErro sValid =
      on_change_referencia queryVazia sValid ∧
    (on_change_referencia queryErro sValid).itens_ref = [] ∧
    (on_change_referencia queryErro sValid).item_escolhido = none := by
  have h := C10_lookup_error_is_empty queryErro sValid
  have h4 := h.2.2.2 ⟨"connection failed"⟩ (by rfl)
  exact ⟨h4.1, h4.2, h.1⟩

/-- A normalized report row: the display columns of the CONSULTA view, as
strings (the shape `carregar_sugestoes` hands to the filter block). -/
structure Row where
  referencia : String
  quantidade : String
  marca : String
  tipo_sugestao : String
  comentario_vendedor : String
  vendedor : String
  acao_comprador : String
  comentario_comprador : String
  ordem_compra : String
  codigo : String
  descricao_codigo : String
  data_lancamento : String
deriving DecidableEq

/-- The report's filter selections, one per filter-state key (including
`f_desc`, which is initialized but never rendered as a selectbox). -/
structure FilterSel where
  f_ref : String
  f_marca : String
  f_tipo : String
  f_vendedor : String
  f_acao : String
  f_coment_comp : String
  f_oc : String
  f_codigo : String
  f_desc : String
  f_data : String
deriving DecidableEq

/-- One `if filtro != "(Todos)": df = df[df[col] == filtro]` step. -/
def aplicaFiltro (sel : String) (val : Row → String) (df : List Row) :
    List Row :=
  if sel = "(Todos)" then df else df.filter (fun r => val r = sel)

/-- The filter block of the CONSULTA page: the nine equality filters, in
source order.  No step consults `f_desc` / the "Descrição Código" column. -/
def df_filtrado (f : FilterSel) (df : List Row) : List Row :=
  aplicaFiltro f.f_data (fun r => r.data_lancamento)
    (aplicaFiltro f.f_codigo (fun r => r.codigo)
      (aplicaFiltro f.f_oc (fun r => r.ordem_compra)
        (aplicaFiltro f.f_coment_comp (fun r => r.comentario_comprador)
          (aplicaFiltro f.f_acao (fun r => r.acao_comprador)
            (aplicaFiltro f.f_vendedor (fun r => r.vendedor)
              (aplicaFiltro f.f_tipo (fun r => r.tipo_sugestao)
                (aplicaFiltro f.f_marca (fun r => r.marca)
                  (aplicaFiltro f.f_ref (fun r => r.referencia) df))))))))

/-- The `_uniq` helper of the CONSULTA page: first-seen distinct values of a
column, stripped, the blank ones dropped, sorted case-insensitively. -/
def uniqVals (df : List Row) (val : Row → String) : List String :=
  (((dedupKeepFirst (df.map val)).map pyStrip).filter
    (fun v => v ≠ "")).mergeSort (fun a b => a.toLower ≤ b.toLower)

/-- The option list computed — but never rendered — for the item-description
column: `opcoes_desc = ["(Todos)"] + _uniq("Descrição Código")`. -/
def opcoes_desc (df : List Row) : List String :=
  "(Todos)" :: uniqVals df (fun r => r.descricao_codigo)

/-- The selection with every filter at the "(Todos)" sentinel. -/
def todosSel : FilterSel where
  f_ref := "(Todos)"
  f_marca := "(Todos)"
  f_tipo := "(Todos)"
  f_vendedor := "(Todos)"
  f_acao := "(Todos)"
  f_coment_comp := "(Todos)"
  f_oc := "(Todos)"
  f_codigo := "(Todos)"
  f_desc := "(Todos)"
  f_data := "(Todos)"

theorem aplicaFiltro_mem (sel : String) (val : Row → String) (df : List Row)
    (r : Row) : r ∈ aplicaFiltro sel val df ↔
      r ∈ df ∧ (sel ≠ "(Todos)" → val r = sel) := by
  rw [aplicaFiltro]
  by_cases h : sel = "(Todos)" <;> simp [h]

theorem df_filtrado_mem (f : FilterSel) (df : List Row) (r : Row) :
    r ∈ df_filtrado f df ↔
      r ∈ df ∧
      (f.f_ref ≠ "(Todos)" → r.referencia = f.f_ref) ∧
      (f.f_marca ≠ "(Todos)" → r.marca = f.f_marca) ∧
      (f.f_tipo ≠ "(Todos)" → r.tipo_sugestao = f.f_tipo) ∧
      (f.f_vendedor ≠ "(Todos)" → r.vendedor = f.f_vendedor) ∧
      (f.f_acao ≠ "(Todos)" → r.acao_comprador = f.f_acao) ∧
      (f.f_coment_comp ≠ "(Todos)" →
        r.comentario_comprador = f.f_coment_comp) ∧
      (f.f_oc ≠ "(Todos)" → r.ordem_compra = f.f_oc) ∧
      (f.f_codigo ≠ "(Todos)" → r.codigo = f.f_codigo) ∧
      (f.f_data ≠ "(Todos)" → r.data_lancamento = f.f_data) := by
  rw [df_filtrado]
  simp only [aplicaFiltro_mem]
  tauto

/-- C7: report filtering is a pure conjunction — a row is in the filtered
result iff it is in the dataset and, for each of the nine filter columns
whose selection is not the "(Todos)" sentinel, its value in that column
equals the selection under exact string equality; with every selection at
the sentinel the filtered result is the dataset itself, unchanged. -/
theorem C7_filter_conjunction (f : FilterSel) (df : List Row) :
    (∀ r, r ∈ df_filtrado f df ↔
      r ∈ df ∧
      (f.f_ref ≠ "(Todos)" → r.referencia = f.f_ref) ∧
      (f.f_marca ≠ "(Todos)" → r.marca = f.f_marca) ∧
      (f.f_tipo ≠ "(Todos)" → r.tipo_sugestao = f.f_tipo) ∧
      (f.f_vendedor ≠ "(Todos)" → r.vendedor = f.f_vendedor) ∧
      (f.f_acao ≠ "(Todos)" → r.acao_comprador = f.f_acao) ∧
      (f.f_coment_comp ≠ "(Todos)" →
        r.comentario_comprador = f.f_coment_comp) ∧
      (f.f_oc ≠ "(Todos)" → r.ordem_compra = f.f_oc) ∧
      (f.f_codigo ≠ "(Todos)" → r.codigo = f.f_codigo) ∧
      (f.f_data ≠ "(Todos)" → r.data_lancamento = f.f_data)) ∧
    df_filtrado todosSel df = df := by
  constructor
  · exact df_filtrado_mem f df
  · rw [df_filtrado]
    simp [aplicaFiltro, todosSel]

/-- Two example rows for the filter witnesses. -/
def rowA : Row where
  referencia := "ABC123"
  quantidade := "5"
  marca := "Bosch"
  tipo_sugestao := "VENDA_CASADA"
  comentario_vendedor := ""
  vendedor := "Maria Silva"
  acao_comprador := ""
  comentario_comprador := ""
  ordem_compra := ""
  codigo := "001"
  descricao_codigo := "Parafuso"
  data_lancamento := "01/02/2025 10:00:00"

/-- A second example row differing in brand and description. -/
def rowB : Row where
  referencia := "ABC123"
  quantidade := "7"
  marca := "Vonder"
  tipo_sugestao := "VENDA_PERDIDA"
  comentario_vendedor := ""
  vendedor := "Jo"
  acao_comprador := ""
  comentario_comprador := ""
  ordem_compra := ""
  codigo := "002"
  descricao_codigo := "Porca"
  data_lancamento := "02/02/2025 11:00:00"

/-- C7 witness: the theorem at a concrete two-row dataset — a brand filter
keeps exactly the matching row, and the all-sentinel selection returns the
dataset unchanged. -/
theorem C7_witness :
    df_filtrado todosSel [rowA, rowB] = [rowA, rowB] ∧
    rowA ∈ df_filtrado { todosSel with f_marca := "Bosch" } [rowA, rowB] ∧
    rowB ∉ df_filtrado { todosSel with f_marca := "Bosch" } [rowA, rowB] := by
  refine ⟨(C7_filter_conjunction todosSel [rowA, rowB]).2, ?_, ?_⟩
  · exact ((C7_filter_conjunction { todosSel with f_marca := "Bosch" }
      [rowA, rowB]).1 rowA).mpr (by decide)
  · intro hmem
    have h := ((C7_filter_conjunction { todosSel with f_marca := "Bosch" }
      [rowA, rowB]).1 rowB).mp hmem
    exact absurd (h.2.2.1 (by decide)) (by decide)

/-- C9: the filtered report is independent of the never-rendered
"Descrição Código" selection — changing `f_desc` changes nothing — and row
inclusion is decided by the nine filtered columns only: two dataset rows
that agree on them are kept or dropped together, whatever their
descriptions; the `f_desc` state key is still initialized to the sentinel
and the option list for the column is still computed, with head
"(Todos)". -/
theorem C9_desc_filter_inert (f : FilterSel) (df : List Row) (d : String)
    (r r2 : Row) (hr : r ∈ df) (hr2 : r2 ∈ df) :
    df_filtrado { f with f_desc := d } df = df_filtrado f df ∧
    (r.referencia = r2.referencia → r.marca = r2.marca →
      r.tipo_sugestao = r2.tipo_sugestao → r.vendedor = r2.vendedor →
      r.acao_comprador = r2.acao_comprador →
      r.comentario_comprador = r2.comentario_comprador →
      r.ordem_compra = r2.ordem_compra → r.codigo = r2.codigo →
      r.data_lancamento = r2.data_lancamento →
      (r ∈ df_filtrado f df ↔ r2 ∈ df_filtrado f df)) ∧
    init_state_defaults.f_desc = "(Todos)" ∧
    (opcoes_desc df).head? = some "(Todos)" := by
  refine ⟨?_, ?_, rfl, rfl⟩
  · obtain ⟨a1, a2, a3, a4, a5, a6, a7, a8, a9, a10⟩ := f
    rfl
  · intro e1 e2 e3 e4 e5 e6 e7 e8 e9
    rw [df_filtrado_mem, df_filtrado_mem, e1, e2, e3, e4, e5, e6, e7, e8, e9]
    simp [hr, hr2]

/-- C9 witness: on the two-row dataset, a brand filter applied with any
`f_desc` selection gives the same result as with the sentinel, and — with
no brand filter — rows agreeing on the nine filtered columns are kept
together. -/
theorem C9_witness :
    df_filtrado { todosSel with f_desc := "Parafuso" } [rowA, rowB] =
      df_filtrado todosSel [rowA, rowB] ∧
    init_state_defaults.f_desc = "(Todos)" := by
  have h := C9_desc_filter_inert todosSel [rowA, rowB] "Parafuso" rowA rowB
    (by decide) (by decide)
  exact ⟨h.1, h.2.2.1⟩

theorem mk_toList (s : String) : String.mk s.toList = s := rfl

theorem pyStripList_sublist (l : List Char) :
    List.Sublist (pyStripList l) l := by
  rw [pyStripList]
  have h1 : List.Sublist ((l.dropWhile pyIsSpace).reverse.dropWhile pyIsSpace)
      (l.dropWhile pyIsSpace).reverse := List.dropWhile_sublist _
  have h2 := h1.reverse
  rw [List.reverse_reverse] at h2
  exact h2.trans (List.dropWhile_sublist _)

theorem stripPunct_pyStrip_stripPunct (s : String) :
    stripPunct (pyStrip (stripPunct s)) = pyStrip (stripPunct s) := by
  rw [stripPunct]
  have hmem : ∀ c ∈ (pyStrip (stripPunct s)).toList,
      (!(c = '.' || c = ',')) = true := by
    intro c hc
    have h1 : c ∈ (stripPunct s).toList :=
      (pyStripList_sublist (stripPunct s).toList).subset hc
    have h2 : c ∈ s.toList.filter (fun c => !(c = '.' || c = ',')) := h1
    exact (List.mem_filter.mp h2).2
  rw [List.filter_eq_self.mpr hmem, mk_toList]

theorem pyStrip_stripPunct_idem (s : String) :
    pyStrip (stripPunct (pyStrip (stripPunct s))) = pyStrip (stripPunct s) := by
  rw [stripPunct_pyStrip_stripPunct, pyStrip_idem]

/-- The fixed raw-to-display column rename table of `carregar_sugestoes`. -/
def renameTable : List (String × String) :=
  [("REFERENCIA", "Referência"),
   ("QUANTIDADE", "Quantidade"),
   ("MARCA", "Marca"),
   ("TIPO_SUGESTAO", "Tipo Sugestão"),
   ("COMENTARIO_VENDEDOR", "Comentário Vendedor"),
   ("VENDEDOR", "Vendedor"),
   ("ACAO_COMPRADOR", "Ação Comprador"),
   ("COMENTARIO_COMPRADOR", "Comentário Comprador"),
   ("ORDEM_COMPRA", "Ordem Compra"),
   ("CODIGO", "Código"),
   ("DESCRICAO_CODIGO", "Descrição Código"),
   ("DATA_LANCAMENTO", "Data Lançamento")]

/-- `df.rename(columns=...)` on one column name: renamed when it is a key of
the table, untouched otherwise. -/
def renameCol (c : String) : String :=
  match renameTable.find? (fun p => p.1 = c) with
  | some p => p.2
  | none => c

theorem renameCol_idem (c : String) : renameCol (renameCol c) = renameCol c := by
  rcases hf : renameTable.find? (fun p => p.1 = c) with - | p
  · have h1 : renameCol c = c := by rw [renameCol, hf]
    rw [h1]
    exact h1
  · have h1 : renameCol c = p.2 := by rw [renameCol, hf]
    rw [h1]
    have hmem : p ∈ renameTable := List.mem_of_find?_eq_some hf
    fin_cases hmem <;> rfl

/-- A timestamp as the normalizer formats it (fields as numbers). -/
structure DT where
  day : Nat
  month : Nat
  year : Nat
  hour : Nat
  minute : Nat
  second : Nat
deriving DecidableEq

def digitChar (n : Nat) : Char := Char.ofNat (48 + n)

/-- A zero-padded two-digit strftime field (%d, %m, %H, %M, %S). -/
def pad2 (n : Nat) : List Char := [digitChar (n / 10 % 10), digitChar (n % 10)]

/-- The zero-padded four-digit strftime year (%Y). -/
def pad4 (n : Nat) : List Char :=
  [digitChar (n / 1000 % 10), digitChar (n / 100 % 10),
   digitChar (n / 10 % 10), digitChar (n % 10)]

/-- `strftime("%d/%m/%Y %H:%M:%S")`. -/
def formatDT (d : DT) : String :=
  String.mk (pad2 d.day ++ '/' :: pad2 d.month ++ '/' :: pad4 d.year ++
    ' ' :: pad2 d.hour ++ ':' :: pad2 d.minute ++ ':' :: pad2 d.second)

/-- The timestamp normalization of one value:
`pd.to_datetime(v, errors="coerce", dayfirst=True)` then
`strftime("%d/%m/%Y %H:%M:%S")` with NaT becoming `""` — over an abstract
day-first parser `parse` standing for the pandas parsing routine (an
external collaborator). -/
def normDate (parse : String → Option DT) : Option String → Option String
  | none => some ""
  | some s =>
    some (match parse s with
      | none => ""
      | some d => formatDT d)

/-- The item-code normalization of one value: drop '.' and ',', strip,
NULL becomes `""`. -/
def normCode (v : Option String) : Option String :=
  some (pyStrip (stripPunct (optStr v)))

theorem normCode_fix (v : Option String) : normCode (normCode v) = normCode v := by
  rw [normCode, normCode, optStr, pyStrip_stripPunct_idem]

theorem normDate_fix (parse : String → Option DT)
    (hp0 : parse "" = none)
    (hrt : ∀ s d, parse s = some d → parse (formatDT d) = some d)
    (v : Option String) :
    normDate parse (normDate parse v) = normDate parse v := by
  cases v with
  | none =>
    show normDate parse (some "") = some ""
    rw [normDate, hp0]
  | some s =>
    rcases hps : parse s with - | d
    · have h1 : normDate parse (some s) = some "" := by rw [normDate, hps]
      rw [h1, normDate, hp0]
    · have h1 : normDate parse (some s) = some (formatDT d) := by
        rw [normDate, hps]
      rw [h1, normDate, hrt s d hps]

/-- A raw (or normalized) record: the ordered column/value pairs of one
dataframe row, values nullable. -/
abbrev Record : Type := List (String × Option String)

/-- Apply `g` to the value of every column named `k` (a pandas
whole-column assignment). -/
def MapVal (k : String) (g : Option String → Option String) (r : Record) :
    Record :=
  r.map (fun p => if p.1 = k then (p.1, g p.2) else p)

/-- `k in df.columns`. -/
def hasCol (r : Record) (k : String) : Bool := r.any (fun p => p.1 = k)

/-- `df.rename(columns=...)`: every column name through the fixed table. -/
def renameRecord (r : Record) : Record :=
  r.map (fun p => (renameCol p.1, p.2))

/-- The timestamp pass: only when the "Data Lançamento" column exists. -/
def dateStep (parse : String → Option DT) (r : Record) : Record :=
  if hasCol r "Data Lançamento" then
    MapVal "Data Lançamento" (normDate parse) r
  else r

/-- The item-code pass: only when the "Código" column exists. -/
def codeStep (r : Record) : Record :=
  if hasCol r "Código" then MapVal "Código" normCode r else r

/-- The record normalizer of `carregar_sugestoes`: rename the columns by
the fixed table, then — when the column is present — format the
"Data Lançamento" value (unparseable or NULL becomes `""`) and de-punctuate
and strip the "Código" value. -/
def normalizeRecord (parse : String → Option DT) (r : Record) : Record :=
  codeStep (dateStep parse (renameRecord r))

theorem MapVal_fst (k : String) (g : Option String → Option String)
    (r : Record) : (MapVal k g r).map Prod.fst = r.map Prod.fst := by
  rw [MapVal, List.map_map]
  apply List.map_congr_left
  intro p hp
  by_cases h : p.1 = k <;> simp [h]

theorem hasCol_eq (r : Record) (k : String) :
    hasCol r k = (r.map Prod.fst).any (fun c => decide (c = k)) := by
  rw [hasCol]
  induction r with
  | nil => rfl
  | cons x xs ih => simp only [List.any_cons, List.map_cons, ih]

theorem hasCol_MapVal (k2 k : String) (g : Option String → Option String)
    (r : Record) : hasCol (MapVal k g r) k2 = hasCol r k2 := by
  rw [hasCol_eq, hasCol_eq, MapVal_fst]

theorem mem_MapVal_of_ne (k : String) (g : Option String → Option String)
    (r : Record) (p : String × Option String) (hp : p ∈ MapVal k g r)
    (hne : p.1 ≠ k) : p ∈ r := by
  rw [MapVal] at hp
  obtain ⟨q, hq, hpq⟩ := List.mem_map.mp hp
  by_cases h : q.1 = k
  · rw [if_pos h] at hpq
    exact absurd (by rw [← hpq, h]) hne
  · rw [if_neg h] at hpq
    rw [← hpq]
    exact hq

theorem mem_MapVal_of_eq (k : String) (g : Option String → Option String)
    (r : Record) (p : String × Option String) (hp : p ∈ MapVal k g r)
    (heq : p.1 = k) : ∃ q ∈ r, p = (q.1, g q.2) := by
  rw [MapVal] at hp
  obtain ⟨q, hq, hpq⟩ := List.mem_map.mp hp
  by_cases h : q.1 = k
  · rw [if_pos h] at hpq
    exact ⟨q, hq, hpq.symm⟩
  · rw [if_neg h] at hpq
    rw [← hpq] at heq
    exact absurd heq h

theorem MapVal_fix (k : String) (g : Option String → Option String)
    (r : Record) (hfix : ∀ p ∈ r, p.1 = k → g p.2 = p.2) :
    MapVal k g r = r := by
  rw [MapVal]
  have h : ∀ p ∈ r, (if p.1 = k then (p.1, g p.2) else p) = p := by
    intro p hp
    by_cases hk : p.1 = k
    · rw [if_pos hk, hfix p hp hk]
    · rw [if_neg hk]
  rw [List.map_congr_left h, List.map_id']

theorem renameRecord_fix (r : Record) (h : ∀ p ∈ r, renameCol p.1 = p.1) :
    renameRecord r = r := by
  rw [renameRecord]
  have h2 : ∀ p ∈ r,
      ((renameCol p.1, p.2) : String × Option String) = p := by
    intro p hp
    rw [h p hp]
  rw [List.map_congr_left h2, List.map_id']

theorem dateStep_fst (parse : String → Option DT) (r : Record) :
    (dateStep parse r).map Prod.fst = r.map Prod.fst := by
  rw [dateStep]
  by_cases h : hasCol r "Data Lançamento" = true <;> simp [h, MapVal_fst]

theorem codeStep_fst (r : Record) :
    (codeStep r).map Prod.fst = r.map Prod.fst := by
  rw [codeStep]
  by_cases h : hasCol r "Código" = true <;> simp [h, MapVal_fst]

theorem normalizeRecord_fst (parse : String → Option DT) (r : Record) :
    (normalizeRecord parse r).map Prod.fst =
      (r.map Prod.fst).map renameCol := by
  rw [normalizeRecord, codeStep_fst, dateStep_fst, renameRecord,
    List.map_map, List.map_map]
  rfl

theorem normalizeRecord_fix (parse : String → Option DT) (r : Record)
    (K1 : ∀ p ∈ r, renameCol p.1 = p.1)
    (K2 : ∀ p ∈ r, p.1 = "Data Lançamento" → normDate parse p.2 = p.2)
    (K3 : ∀ p ∈ r, p.1 = "Código" → normCode p.2 = p.2) :
    normalizeRecord parse r = r := by
  rw [normalizeRecord, renameRecord_fix r K1]
  have hdate : dateStep parse r = r := by
    rw [dateStep]
    by_cases h : hasCol r "Data Lançamento" = true
    · rw [if_pos h, MapVal_fix _ _ _ K2]
    · rw [if_neg h]
  rw [hdate, codeStep]
  by_cases h : hasCol r "Código" = true
  · rw [if_pos h, MapVal_fix _ _ _ K3]
  · rw [if_neg h]

theorem hasCol_false_not_mem (r : Record) (k : String)
    (h : hasCol r k = false) : ∀ p ∈ r, p.1 ≠ k := by
  intro p hp
  rw [hasCol, List.any_eq_false] at h
  simpa using h p hp

theorem normalizeRecord_K1 (parse : String → Option DT) (r : Record) :
    ∀ p ∈ normalizeRecord parse r, renameCol p.1 = p.1 := by
  intro p hp
  have h1 : p.1 ∈ (normalizeRecord parse r).map Prod.fst :=
    List.mem_map_of_mem Prod.fst hp
  rw [normalizeRecord_fst] at h1
  obtain ⟨c, hc, hcp⟩ := List.mem_map.mp h1
  rw [← hcp, renameCol_idem]

theorem normalizeRecord_K2 (parse : String → Option DT)
    (hp0 : parse "" = none)
    (hrt : ∀ s d, parse s = some d → parse (formatDT d) = some d)
    (r : Record) :
    ∀ p ∈ normalizeRecord parse r, p.1 = "Data Lançamento" →
      normDate parse p.2 = p.2 := by
  intro p hp hk
  rw [normalizeRecord] at hp
  have hp2 : p ∈ dateStep parse (renameRecord r) := by
    rw [codeStep] at hp
    by_cases hc : hasCol (dateStep parse (renameRecord r)) "Código" = true
    · rw [if_pos hc] at hp
      exact mem_MapVal_of_ne _ _ _ p hp (by rw [hk]; decide)
    · rw [if_neg hc] at hp
      exact hp
  rw [dateStep] at hp2
  by_cases hd : hasCol (renameRecord r) "Data Lançamento" = true
  · rw [if_pos hd] at hp2
    obtain ⟨q, hq, hpq⟩ := mem_MapVal_of_eq _ _ _ p hp2 hk
    have hsnd : p.2 = normDate parse q.2 := congrArg Prod.snd hpq
    rw [hsnd, normDate_fix parse hp0 hrt]
  · rw [if_neg hd] at hp2
    exact absurd hk (hasCol_false_not_mem _ _ (by simpa using hd) p hp2)

theorem normalizeRecord_K3 (parse : String → Option DT) (r : Record) :
    ∀ p ∈ normalizeRecord parse r, p.1 = "Código" →
      normCode p.2 = p.2 := by
  intro p hp hk
  rw [normalizeRecord, codeStep] at hp
  by_cases hc : hasCol (dateStep parse (renameRecord r)) "Código" = true
  · rw [if_pos hc] at hp
    obtain ⟨q, hq, hpq⟩ := mem_MapVal_of_eq _ _ _ p hp hk
    have hsnd : p.2 = normCode q.2 := congrArg Prod.snd hpq
    rw [hsnd, normCode_fix]
  · rw [if_neg hc] at hp
    exact absurd hk (hasCol_false_not_mem _ _ (by simpa using hc) p hp)

/-- C8: the record normalizer — column renaming through the fixed table,
day-first timestamp formatting to "%d/%m/%Y %H:%M:%S" with unparseable
values becoming the empty string, '.' and ',' stripped from the item code —
is idempotent: normalizing an already-normalized record changes nothing.
The pandas parsing routine enters as the abstract day-first parser `parse`,
assumed (as the library guarantees for this dayfirst format) not to parse
the empty string and to read its own formatted output back to the same
timestamp. -/
theorem C8_normalize_idem (parse : String → Option DT)
    (hp0 : parse "" = none)
    (hrt : ∀ s d, parse s = some d → parse (formatDT d) = some d)
    (r : Record) :
    normalizeRecord parse (normalizeRecord parse r) =
      normalizeRecord parse r :=
  normalizeRecord_fix parse (normalizeRecord parse r)
    (normalizeRecord_K1 parse r)
    (normalizeRecord_K2 parse hp0 hrt r)
    (normalizeRecord_K3 parse r)

def isDig (c : Char) : Bool := decide (48 ≤ c.toNat) && decide (c.toNat ≤ 57)

def digitVal (c : Char) : Nat := c.toNat - 48

/-- A concrete day-first parser for the canonical "%d/%m/%Y %H:%M:%S"
output shape, used to instantiate the abstract pandas parser in the
witness. -/
def canonicalParse (s : String) : Option DT :=
  match s.toList with
  | [d1, d2, s1, m1, m2, s2, y1, y2, y3, y4, s3, h1, h2, s4, n1, n2, s5,
     c1, c2] =>
    if isDig d1 && isDig d2 && isDig m1 && isDig m2 && isDig y1 && isDig y2 &&
        isDig y3 && isDig y4 && isDig h1 && isDig h2 && isDig n1 && isDig n2 &&
        isDig c1 && isDig c2 && decide (s1 = '/') && decide (s2 = '/') &&
        decide (s3 = ' ') && decide (s4 = ':') && decide (s5 = ':') then
      some ⟨10 * digitVal d1 + digitVal d2, 10 * digitVal m1 + digitVal m2,
        1000 * digitVal y1 + 100 * digitVal y2 + 10 * digitVal y3 +
          digitVal y4,
        10 * digitVal h1 + digitVal h2, 10 * digitVal n1 + digitVal n2,
        10 * digitVal c1 + digitVal c2⟩
    else none
  | _ => none

theorem isDig_digitChar_mod (m : Nat) : isDig (digitChar (m % 10)) = true := by
  have h : m % 10 ≤ 9 := Nat.le_of_lt_succ (Nat.mod_lt m (by norm_num))
  interval_cases hm : (m % 10) <;> decide

theorem digitVal_digitChar_mod (m : Nat) :
    digitVal (digitChar (m % 10)) = m % 10 := by
  have h : m % 10 ≤ 9 := Nat.le_of_lt_succ (Nat.mod_lt m (by norm_num))
  interval_cases hm : (m % 10) <;> decide

theorem digitVal_le_of_isDig (c : Char) (h : isDig c = true) :
    digitVal c ≤ 9 := by
  rw [isDig] at h
  simp only [Bool.and_eq_true, decide_eq_true_eq] at h
  rw [digitVal]
  omega

theorem canonicalParse_formatDT (d : DT) (b1 : d.day ≤ 99) (b2 : d.month ≤ 99)
    (b3 : d.year ≤ 9999) (b4 : d.hour ≤ 99) (b5 : d.minute ≤ 99)
    (b6 : d.second ≤ 99) : canonicalParse (formatDT d) = some d := by
  obtain ⟨n1, n2, n3, n4, n5, n6⟩ := d
  dsimp only at b1 b2 b3 b4 b5 b6
  have hlist : (formatDT ⟨n1, n2, n3, n4, n5, n6⟩).toList =
      [digitChar (n1 / 10 % 10), digitChar (n1 % 10), '/',
       digitChar (n2 / 10 % 10), digitChar (n2 % 10), '/',
       digitChar (n3 / 1000 % 10), digitChar (n3 / 100 % 10),
       digitChar (n3 / 10 % 10), digitChar (n3 % 10), ' ',
       digitChar (n4 / 10 % 10), digitChar (n4 % 10), ':',
       digitChar (n5 / 10 % 10), digitChar (n5 % 10), ':',
       digitChar (n6 / 10 % 10), digitChar (n6 % 10)] := rfl
  rw [canonicalParse, hlist]
  dsimp only
  simp only [isDig_digitChar_mod, eq_self_iff_true, decide_True,
    Bool.and_true, Bool.true_and, Bool.and_self, if_true,
    Option.some.injEq, DT.mk.injEq, digitVal_digitChar_mod]
  refine ⟨?_, ?_, ?_, ?_, ?_, ?_⟩ <;> omega

theorem canonicalParse_bounds (s : String) (d : DT)
    (h : canonicalParse s = some d) :
    d.day ≤ 99 ∧ d.month ≤ 99 ∧ d.year ≤ 9999 ∧ d.hour ≤ 99 ∧
      d.minute ≤ 99 ∧ d.second ≤ 99 := by
  rw [canonicalParse] at h
  split at h
  · split at h
    · rename_i hc
      simp only [Bool.and_eq_true] at hc
      obtain ⟨⟨⟨⟨⟨⟨⟨⟨⟨⟨⟨⟨⟨⟨⟨⟨⟨⟨hd1, hd2⟩, hm1⟩, hm2⟩, hy1⟩, hy2⟩, hy3⟩,
        hy4⟩, hh1⟩, hh2⟩, hn1⟩, hn2⟩, hc1⟩, hc2⟩, hs1⟩, hs2⟩, hs3⟩, hs4⟩,
        hs5⟩ := hc
      obtain rfl := (Option.some.injEq _ _).mp h |>.symm
      have e1 := digitVal_le_of_isDig _ hd1
      have e2 := digitVal_le_of_isDig _ hd2
      have e3 := digitVal_le_of_isDig _ hm1
      have e4 := digitVal_le_of_isDig _ hm2
      have e5 := digitVal_le_of_isDig _ hy1
      have e6 := digitVal_le_of_isDig _ hy2
      have e7 := digitVal_le_of_isDig _ hy3
      have e8 := digitVal_le_of_isDig _ hy4
      have e9 := digitVal_le_of_isDig _ hh1
      have e10 := digitVal_le_of_isDig _ hh2
      have e11 := digitVal_le_of_isDig _ hn1
      have e12 := digitVal_le_of_isDig _ hn2
      have e13 := digitVal_le_of_isDig _ hc1
      have e14 := digitVal_le_of_isDig _ hc2
      refine ⟨?_, ?_, ?_, ?_, ?_, ?_⟩ <;> dsimp only <;> omega
    · exact absurd h (by simp)
  · exact absurd h (by simp)

theorem canonicalParse_rt (s : String) (d : DT)
    (h : canonicalParse s = some d) :
    canonicalParse (formatDT d) = some d := by
  obtain ⟨b1, b2, b3, b4, b5, b6⟩ := canonicalParse_bounds s d h
  exact canonicalParse_formatDT d b1 b2 b3 b4 b5 b6

/-- A raw backend record for the C8 witness: reference, quantity, a code
with grouping punctuation and padding, a parseable day-first timestamp, and
a NULL buyer-action column. -/
def recW : Record :=
  [("REFERENCIA", some "ABC123"), ("QUANTIDADE", some "5"),
   ("CODIGO", some " 0.0,1 "), ("DATA_LANCAMENTO", some "31/12/2023 10:20:30"),
   ("ACAO_COMPRADOR", none)]

/-- C8 witness: the idempotence theorem applied to the concrete canonical
parser (which rejects the empty string and round-trips its own output) and
a concrete raw record; the normalized form is also computed explicitly. -/
theorem C8_witness :
    normalizeRecord canonicalParse (normalizeRecord canonicalParse recW) =
      normalizeRecord canonicalParse recW ∧
    normalizeRecord canonicalParse recW =
      [("Referência", some "ABC123"), ("Quantidade", some "5"),
       ("Código", some "001"),
       ("Data Lançamento", some "31/12/2023 10:20:30"),
       ("Ação Comprador", none)] := by
  refine ⟨C8_normalize_idem canonicalParse rfl canonicalParse_rt recW, ?_⟩
  decide

end SNV
